import Mathlib

/-!
Verification of the dorothy chat-bot core (src/main.rs, src/types.rs, src/api.rs).
The mutable struct ChatHistory is embedded as an immutable record; each Rust
method becomes a Lean function from the old state to the new state.  Machine
integers are embedded as Nat (no overflow is reachable: all counts are small).
-/

namespace Dorothy

/-- Embeds Rust `line.split(' ')` (used as `line.split(' ').count()` in
`calculate_new_tokens` and `recalculate_tokens`): the list of pieces obtained
by cutting at every single space character, keeping empty pieces.  The result
is never empty: an empty input yields one empty piece, matching Rust. -/
def splitSpaces : List Char → List (List Char)
  | [] => [[]]
  | c :: cs =>
    if c = ' ' then [] :: splitSpaces cs
    else
      match splitSpaces cs with
      | [] => [[c]]
      | g :: gs => (c :: g) :: gs

/-- Embeds the token estimator of src/main.rs: `line.split(' ').count()`. -/
def countTokens (line : String) : Nat :=
  (splitSpaces line.data).length

/-- Embeds `struct HumanChatLog { line: String, name: String }`. -/
structure HumanChatLog where
  line : String
  name : String
deriving DecidableEq

/-- Embeds `struct Configuration` of src/main.rs.  Rust f64 fields are embedded
as exact rationals; every literal appearing in the program (0.9, 0.0, 0.6, 0.5)
is exactly representable in f64, so no rounding is lost on the values the
claims mention. -/
structure Configuration where
  top_p : Option Nat
  temperature : Option ℚ
  presence_penalty : Option ℚ
  frequency_penalty : Option ℚ
deriving DecidableEq

/-- Embeds `impl Default for Configuration`. -/
def Configuration.default : Configuration :=
  { top_p := some 1,
    temperature := some (9 / 10 : ℚ),
    frequency_penalty := some 0,
    presence_penalty := some (6 / 10 : ℚ) }

/-- Embeds `struct ChatHistory`.  The `RwLock<String>` around `start_context`
and the `HashSet<String>` of seen names are embedded as a plain string and a
plain list (the claims under verification never depend on hash iteration
order). -/
structure ChatHistory where
  is_private : Bool
  human_chat_log : List HumanChatLog
  ai_chat_log : List String
  seen_names : List String
  tokens_so_far : Nat
  start_context : String
  configuration : Configuration
deriving DecidableEq

/-- The built-in start context of `ChatHistory::new`, copied verbatim from
src/main.rs line 41. -/
def defaultStartContext : String :=
  "The following is a conversation with an AI named Dorothy. Dorothy has short, red hair, red eyes and extremely pale (almost white) skin. Dorothy appears to have a bubbly, joyful and somewhat flirtatious attitude. She often greets every patron politely and doesn\x27t at any point seem overly aggressive or violent. She takes great pride in her work"

/-- Embeds `ChatHistory::new`, including the hard-coded initial estimate of 20
tokens (the source carries the comment `XXX: From start context below`). -/
def ChatHistory.new (is_private : Bool) : ChatHistory :=
  { tokens_so_far := 20,
    seen_names := [],
    ai_chat_log := [],
    human_chat_log := [],
    start_context := defaultStartContext,
    configuration := Configuration.default,
    is_private := is_private }

/-- Embeds `ChatHistory::purge_half_chat_logs`: `drain(0..len/2)` on each log,
i.e. each log independently loses its oldest `len/2` entries. -/
def purgeHalfChatLogs (s : ChatHistory) : ChatHistory :=
  { s with
    human_chat_log := s.human_chat_log.drop (s.human_chat_log.length / 2),
    ai_chat_log := s.ai_chat_log.drop (s.ai_chat_log.length / 2) }

/-- Cost charged for one human log entry by `recalculate_tokens`:
line words plus 1 if private, else plus the word count of the name. -/
def humanLogCost (is_private : Bool) (h : HumanChatLog) : Nat :=
  countTokens h.line + (if is_private then 1 else countTokens h.name)

/-- Cost charged for one AI log entry by `recalculate_tokens`: line words
plus 1 (the source comment: bot name is assumed to be 1 token). -/
def aiLogCost (l : String) : Nat :=
  countTokens l + 1

/-- Embeds `ChatHistory::recalculate_tokens`: a from-scratch walk that sums the
start-context words, then every human entry at `humanLogCost`, then every AI
entry at `aiLogCost`. -/
def recalculateTokens (s : ChatHistory) : ChatHistory :=
  { s with tokens_so_far :=
      (s.ai_chat_log.foldl (fun acc l => acc + aiLogCost l)
        (s.human_chat_log.foldl (fun acc h => acc + humanLogCost s.is_private h)
          (countTokens s.start_context))) }

/-- Embeds `ChatHistory::calculate_new_tokens`: if the new line would push the
running estimate past 1500, purge half of each log and recompute from scratch;
in either case the new line cost is then added to the estimate. -/
def calculateNewTokens (s : ChatHistory) (line : String) : ChatHistory :=
  if countTokens line + s.tokens_so_far > 1500 then
    { recalculateTokens (purgeHalfChatLogs s) with
      tokens_so_far :=
        (recalculateTokens (purgeHalfChatLogs s)).tokens_so_far + countTokens line }
  else
    { s with tokens_so_far := s.tokens_so_far + countTokens line }

/-- Embeds `ChatHistory::add_human_log`: budget step first, then push. -/
def addHumanLog (s : ChatHistory) (nm line : String) : ChatHistory :=
  { calculateNewTokens s line with
    human_chat_log :=
      (calculateNewTokens s line).human_chat_log ++ [{ line := line, name := nm }] }

/-- Embeds `ChatHistory::add_ai_log`: budget step first, then push. -/
def addAiLog (s : ChatHistory) (line : String) : ChatHistory :=
  { calculateNewTokens s line with
    ai_chat_log := (calculateNewTokens s line).ai_chat_log ++ [line] }

/-- Embeds `self.ai_chat_log.last_mut()` followed by `push_str`: concatenates
onto the final element; on an empty log the text is dropped (the source only
logs `Continuation with no last ai chat log!` to stderr). -/
def appendToLast : List String → String → List String
  | [], _ => []
  | [a], line => [a ++ line]
  | a :: b :: rest, line => a :: appendToLast (b :: rest) line

/-- Embeds `ChatHistory::continue_last_ai_log`: budget step first, then
in-place concatenation onto the last AI entry (dropped if none). -/
def continueLastAiLog (s : ChatHistory) (line : String) : ChatHistory :=
  { calculateNewTokens s line with
    ai_chat_log := appendToLast (calculateNewTokens s line).ai_chat_log line }

/-- Embeds `ChatHistory::reset`: clear both logs and the seen names, then
recompute the estimate from scratch. -/
def ChatHistory.reset (s : ChatHistory) : ChatHistory :=
  recalculateTokens { s with human_chat_log := [], ai_chat_log := [], seen_names := [] }

/-- Embeds Rust `str::trim` on the character level: remove leading and
trailing whitespace characters. -/
def trimChars (cs : List Char) : List Char :=
  ((cs.dropWhile Char.isWhitespace).reverse.dropWhile Char.isWhitespace).reverse

/-- Embeds Rust `str::trim`. -/
def trimStr (s : String) : String :=
  String.mk (trimChars s.data)

/-- One rendered human line of `ChatHistory::to_string`:
`"{label}: {line.trim()}\n"` with label `"Human"` when private, else the
stored speaker name. -/
def humanLineStr (is_private : Bool) (h : HumanChatLog) : String :=
  (if is_private then "Human" else h.name) ++ ": " ++ trimStr h.line ++ "\n"

/-- One rendered AI line of `ChatHistory::to_string`:
`"{ai_name}: {line.trim()}{sep}"`. -/
def agentLineStr (ai_name a sep : String) : String :=
  ai_name ++ ": " ++ trimStr a ++ sep

/-- The `to_string` loop once the human iterator is exhausted: the remaining AI
lines are emitted back to back (the human arm of the loop writes nothing), the
final one followed by a space instead of a newline. -/
def aiTail (ai_name : String) : List String → String
  | [] => ""
  | a :: as => agentLineStr ai_name a (if as.isEmpty then " " else "\n") ++ aiTail ai_name as

/-- Embeds the interleaving loop of `ChatHistory::to_string`: alternate human
and AI lines starting with a human line; an exhausted iterator contributes
nothing on its turns; an AI line is followed by a space instead of a newline
exactly when, after it is consumed, both iterators are empty. -/
def renderTurns (is_private : Bool) (ai_name : String) :
    List HumanChatLog → List String → String
  | [], as => aiTail ai_name as
  | h :: hs, [] => humanLineStr is_private h ++ renderTurns is_private ai_name hs []
  | h :: hs, a :: as =>
      humanLineStr is_private h
        ++ agentLineStr ai_name a (if hs.isEmpty && as.isEmpty then " " else "\n")
        ++ renderTurns is_private ai_name hs as

/-- Embeds `ChatHistory::to_string`: the start context, a blank line, then the
interleaved turns. -/
def ChatHistory.toString (s : ChatHistory) (ai_name : String) : String :=
  s.start_context ++ "\n\n" ++ renderTurns s.is_private ai_name s.human_chat_log s.ai_chat_log

/-- Concatenation of a list of rendered lines (spec-side helper). -/
def concatStrings : List String → String
  | [] => ""
  | x :: xs => x ++ concatStrings xs

/-- Alternation of two line lists starting with the first list; when one list
is exhausted the rest of the other follows unchanged (spec-side helper for the
claimed rendering shape). -/
def interleaveStrings : List String → List String → List String
  | [], ys => ys
  | x :: xs, [] => x :: xs
  | x :: xs, y :: ys => x :: y :: interleaveStrings xs ys

/-- The AI lines as the claim describes them: every one followed by a newline
except the last, which is followed by `lastSep` (spec-side helper). -/
def withLastSep (ai_name lastSep : String) : List String → List String
  | [] => []
  | [a] => [agentLineStr ai_name a lastSep]
  | a :: b :: rest => agentLineStr ai_name a "\n" :: withLastSep ai_name lastSep (b :: rest)

/-- Spec-side rendering, following the words of claim C4: the preamble, a
blank line, then human and agent lines alternating starting with a human line;
every human line ends in a newline; every agent line ends in a newline except
an agent line that is simultaneously the last remaining line of both logs
(equivalently: the last agent line, when no human line comes after it in the
alternation, i.e. when there are at most as many human lines as agent lines),
which ends in a single space. -/
def claimRender (is_private : Bool) (ai_name preamble : String)
    (hs : List HumanChatLog) (as : List String) : String :=
  preamble ++ "\n\n"
    ++ concatStrings (interleaveStrings (hs.map (humanLineStr is_private))
        (withLastSep ai_name (if hs.length ≤ as.length then " " else "\n") as))

/-- Spec-side token estimator, following the words of claim C3: the number of
whitespace-delimited segments of the line (maximal nonempty runs of
non-whitespace characters). -/
def wsSegmentsAux : List Char → Bool → Nat
  | [], _ => 0
  | c :: cs, inWord =>
    if c.isWhitespace then wsSegmentsAux cs false
    else (if inWord then 0 else 1) + wsSegmentsAux cs true

/-- Count of whitespace-delimited segments of a line (spec-side, claim C3). -/
def whitespaceSegmentCount (s : String) : Nat :=
  wsSegmentsAux s.data false

/-- Embeds `types::FinishReason`. -/
inductive FinishReason where
  | length
  | stop
deriving DecidableEq

/-- Embeds `types::Choice` (the fields the program reads). -/
structure Choice where
  text : String
  finish_reason : FinishReason
deriving DecidableEq

/-- Embeds `types::Completion` (the field the program reads). -/
structure Completion where
  choices : List Choice
deriving DecidableEq

/-- Embeds `first_choice.text.replace("\n", " ")`. -/
def replaceNewlines (s : String) : String :=
  String.mk (s.data.map fun c => if c = '\n' then ' ' else c)

/-- Embeds the loop body of `generate_response`.  The remote service is
modelled by the list of responses it returns on successive calls; running out
of scripted responses models the transport-error abort (`?` in the source),
which returns no reply.  Prompt construction (`to_string`) reads but never
writes the state, so it is not modelled.  `choices.pop()` takes the vector's
last element. -/
def generateResponseGo : List Completion → ChatHistory → Bool → String → Option (String × ChatHistory)
  | [], _, _, _ => none
  | r :: rest, s, first, buf =>
    match r.choices.getLast? with
    | none => some (buf, s)
    | some choice =>
      match choice.finish_reason with
      | FinishReason.stop =>
          some (buf ++ replaceNewlines choice.text,
            if first then addAiLog s (replaceNewlines choice.text)
            else continueLastAiLog s (replaceNewlines choice.text))
      | FinishReason.length =>
          generateResponseGo rest
            (if first then addAiLog s (replaceNewlines choice.text)
             else continueLastAiLog s (replaceNewlines choice.text))
            false
            (buf ++ replaceNewlines choice.text)

/-- Embeds `generate_response`: start in the first round with an empty reply
buffer. -/
def generateResponse (responses : List Completion) (s : ChatHistory) :
    Option (String × ChatHistory) :=
  generateResponseGo responses s true ""

/-- Decimal digits to a natural number (helper for the float-parsing model). -/
def digitsToNat (ds : List Char) : Nat :=
  ds.foldl (fun a c => a * 10 + (c.toNat - '0'.toNat)) 0

/-- Unsigned part of the float-parsing model: digits, optionally followed by a
dot and more digits; anything else fails.  Returns the integer-part value,
the fraction-part value and the fraction length as plain naturals. -/
def parseDecimalParts (cs : List Char) : Option (Nat × Nat × Nat) :=
  match cs.dropWhile Char.isDigit with
  | [] =>
    if (cs.takeWhile Char.isDigit).isEmpty then none
    else some (digitsToNat (cs.takeWhile Char.isDigit), 0, 0)
  | '.' :: frac =>
    if frac.isEmpty then
      if (cs.takeWhile Char.isDigit).isEmpty then none
      else some (digitsToNat (cs.takeWhile Char.isDigit), 0, 0)
    else if frac.all Char.isDigit then
      some (digitsToNat (cs.takeWhile Char.isDigit), digitsToNat frac, frac.length)
    else none
  | _ => none

/-- The exact rational value of a parsed decimal: integer part plus fraction
part scaled down by its length. -/
def ratOfParts (p : Nat × Nat × Nat) : ℚ :=
  (p.1 : ℚ) + (p.2.1 : ℚ) / (10 : ℚ) ^ p.2.2

/-- Models Rust `str::parse::<f64>` (standard-library code, outside this
repository) on plain decimal literals, with the value held exactly as a
rational: optional sign, then digits with an optional fractional part.  Inputs
such as "abc" fail; "0.5" parses to exactly one half, which is also the exact
f64 value of that literal. -/
def parseF64 (s : String) : Option ℚ :=
  match s.data with
  | '-' :: rest => (parseDecimalParts rest).map (fun p => -(ratOfParts p))
  | '+' :: rest => (parseDecimalParts rest).map ratOfParts
  | cs => (parseDecimalParts cs).map ratOfParts

/-- Whether the first character list is an initial segment of the second
(helper for the starts-with model). -/
def isPrefixChars : List Char → List Char → Bool
  | [], _ => true
  | _ :: _, [] => false
  | p :: ps, c :: cs => p = c && isPrefixChars ps cs

/-- Embeds Rust `str::starts_with`. -/
def startsWithStr (content pre : String) : Bool :=
  isPrefixChars pre.data content.data

/-- Embeds the `!temperature` arm of `Handler::message` (the code run once the
allow-list check has passed): an exact-length match clears the option; any
longer message has its first 13 characters removed and the remainder parsed,
a successful parse storing the value and a failed parse changing nothing.
Rust compares byte lengths (`len()`); since the guard forces the first twelve
characters to be the ASCII string `!temperature`, the byte lengths are equal
exactly when the character counts are, which is what is compared here. -/
def applyTemperatureCommand (content : String) (cfg : Configuration) : Configuration :=
  if startsWithStr content "!temperature" then
    if content.data.length = "!temperature".data.length then
      { cfg with temperature := none }
    else
      match parseF64 (String.mk (content.data.drop ("!temperature".data.length + 1))) with
      | some v => { cfg with temperature := some v }
      | none => cfg
  else cfg

/-- A human or agent append, for stating properties of call sequences. -/
inductive AppendOp where
  | human (nm line : String)
  | agent (line : String)

/-- The line of text an append operation carries. -/
def opLine : AppendOp → String
  | AppendOp.human _ l => l
  | AppendOp.agent l => l

/-- Run one append operation on the history. -/
def applyOp (s : ChatHistory) : AppendOp → ChatHistory
  | AppendOp.human nm l => addHumanLog s nm l
  | AppendOp.agent l => addAiLog s l

/-- Run a sequence of append operations on the history. -/
def applyOps (s : ChatHistory) (ops : List AppendOp) : ChatHistory :=
  ops.foldl applyOp s

/-- Total estimated cost of the lines of a sequence of append operations. -/
def opsCost (ops : List AppendOp) : Nat :=
  (ops.map (fun o => countTokens (opLine o))).sum

/-- A line of 1600 spaces: its estimated cost is 1601 tokens, far past the
1500 ceiling on its own. -/
def bigLine : String :=
  String.mk (List.replicate 1600 ' ')

/-- A concrete over-budget state used to instantiate claim C1. -/
def c1State : ChatHistory :=
  { is_private := false,
    human_chat_log := [{ line := "a", name := "A" }, { line := "b", name := "B" }],
    ai_chat_log := ["x", "y"],
    seen_names := [],
    tokens_so_far := 1500,
    start_context := "two words",
    configuration := Configuration.default }

/-- The state of claim C5: a fresh non-private context whose preamble is
"Hello.", after one human turn. -/
def c5State : ChatHistory :=
  addHumanLog { ChatHistory.new false with start_context := "Hello." } "Alice" "hi"

/-- The state of the claim C4 scenario: a fresh non-private context after
appendHuman("A", "hi") and appendAgent("hey"). -/
def c4State : ChatHistory :=
  addAiLog (addHumanLog (ChatHistory.new false) "A" "hi") "hey"

/-! ### Helper lemmas -/

theorem splitSpaces_ne_nil (cs : List Char) : splitSpaces cs ≠ [] := by
  cases cs with
  | nil => simp [splitSpaces]
  | cons c cs =>
    simp only [splitSpaces]
    split
    · simp
    · split
      · simp
      · simp

theorem splitSpaces_length (cs : List Char) :
    (splitSpaces cs).length = cs.count ' ' + 1 := by
  induction cs with
  | nil => rfl
  | cons c cs ih =>
    by_cases hc : c = ' '
    · subst hc
      have h1 : splitSpaces (' ' :: cs) = [] :: splitSpaces cs := by
        simp [splitSpaces]
      rw [h1, List.length_cons, ih, List.count_cons]
      simp
    · cases hsp : splitSpaces cs with
      | nil => exact absurd hsp (splitSpaces_ne_nil cs)
      | cons g gs =>
        have h1 : splitSpaces (c :: cs) = (c :: g) :: gs := by
          simp [splitSpaces, hc, hsp]
        rw [hsp] at ih
        rw [h1, List.length_cons, List.count_cons]
        simp only [List.length_cons] at ih
        simp only [beq_iff_eq, hc, if_false]
        omega

theorem countTokens_count (line : String) :
    countTokens line = line.data.count ' ' + 1 :=
  splitSpaces_length line.data

theorem countTokens_bigLine : countTokens bigLine = 1601 := by
  have h : bigLine.data = List.replicate 1600 ' ' := rfl
  rw [countTokens_count, h, List.count_replicate_self]

theorem string_empty_append (s : String) : "" ++ s = s := by
  cases s
  rfl

theorem string_append_assoc (a b c : String) : a ++ b ++ c = a ++ (b ++ c) := by
  cases a with
  | mk xs =>
    cases b with
    | mk ys =>
      cases c with
      | mk zs => exact congrArg String.mk (List.append_assoc xs ys zs)

theorem appendToLast_snoc (l : List String) (a x : String) :
    appendToLast (l ++ [a]) x = l ++ [a ++ x] := by
  induction l with
  | nil => rfl
  | cons b l ih =>
    cases l with
    | nil => rfl
    | cons c l2 =>
      simp only [List.cons_append, List.append_eq, appendToLast] at ih ⊢
      rw [ih]

theorem calculateNewTokens_same_fields (s : ChatHistory) (line : String) :
    (calculateNewTokens s line).seen_names = s.seen_names
    ∧ (calculateNewTokens s line).start_context = s.start_context
    ∧ (calculateNewTokens s line).is_private = s.is_private
    ∧ (calculateNewTokens s line).configuration = s.configuration := by
  by_cases h : countTokens line + s.tokens_so_far > 1500 <;>
    simp [calculateNewTokens, h, recalculateTokens, purgeHalfChatLogs]

theorem calculateNewTokens_logs (s : ChatHistory) (line : String) :
    ∃ j k, 2 * j ≤ s.ai_chat_log.length ∧ 2 * k ≤ s.human_chat_log.length
      ∧ (calculateNewTokens s line).ai_chat_log = s.ai_chat_log.drop j
      ∧ (calculateNewTokens s line).human_chat_log = s.human_chat_log.drop k := by
  by_cases h : countTokens line + s.tokens_so_far > 1500
  · exact ⟨s.ai_chat_log.length / 2, s.human_chat_log.length / 2, by omega, by omega,
      by simp [calculateNewTokens, h, recalculateTokens, purgeHalfChatLogs],
      by simp [calculateNewTokens, h, recalculateTokens, purgeHalfChatLogs]⟩
  · exact ⟨0, 0, by omega, by omega,
      by simp [calculateNewTokens, h], by simp [calculateNewTokens, h]⟩

theorem calculateNewTokens_purge_eq (s : ChatHistory) (line : String)
    (h : countTokens line + s.tokens_so_far > 1500) :
    calculateNewTokens s line
      = { recalculateTokens (purgeHalfChatLogs s) with
          tokens_so_far :=
            (recalculateTokens (purgeHalfChatLogs s)).tokens_so_far + countTokens line } := by
  simp only [calculateNewTokens, if_pos h]

theorem calculateNewTokens_le (s : ChatHistory) (line : String) :
    (calculateNewTokens s line).tokens_so_far
      ≤ max 1500 (recalculateTokens (purgeHalfChatLogs s)).tokens_so_far + countTokens line := by
  by_cases h : countTokens line + s.tokens_so_far > 1500
  · simp only [calculateNewTokens, if_pos h]
    exact Nat.add_le_add_right (Nat.le_max_right _ _) _
  · simp only [calculateNewTokens, if_neg h]
    have h1 : s.tokens_so_far + countTokens line ≤ 1500 := by omega
    exact h1.trans ((Nat.le_max_left _ _).trans (Nat.le_add_right _ _))

theorem applyOp_tokens_no_purge (s : ChatHistory) (o : AppendOp)
    (h : countTokens (opLine o) + s.tokens_so_far ≤ 1500) :
    (applyOp s o).tokens_so_far = s.tokens_so_far + countTokens (opLine o) := by
  cases o with
  | human nm l =>
    simp only [opLine] at h
    simp [applyOp, addHumanLog, calculateNewTokens, opLine, Nat.not_lt.mpr h]
  | agent l =>
    simp only [opLine] at h
    simp [applyOp, addAiLog, calculateNewTokens, opLine, Nat.not_lt.mpr h]

theorem applyOps_tokens (ops : List AppendOp) : ∀ s : ChatHistory,
    s.tokens_so_far + opsCost ops ≤ 1500 →
    (applyOps s ops).tokens_so_far = s.tokens_so_far + opsCost ops := by
  induction ops with
  | nil =>
    intro s _
    simp [applyOps, opsCost]
  | cons o ops ih =>
    intro s h
    have hco : opsCost (o :: ops) = countTokens (opLine o) + opsCost ops := by
      simp [opsCost]
    rw [hco] at h
    have h1 : countTokens (opLine o) + s.tokens_so_far ≤ 1500 := by omega
    have h2 := applyOp_tokens_no_purge s o h1
    have h3 : (applyOp s o).tokens_so_far + opsCost ops ≤ 1500 := by omega
    have h4 : (applyOps s (o :: ops)).tokens_so_far
        = (applyOps (applyOp s o) ops).tokens_so_far := rfl
    rw [h4, ih _ h3, hco]
    omega

theorem interleaveStrings_nil_right (xs : List String) :
    interleaveStrings xs [] = xs := by
  cases xs <;> rfl

theorem aiTail_concat (ai_name : String) (as : List String) :
    aiTail ai_name as = concatStrings (withLastSep ai_name " " as) := by
  induction as with
  | nil => rfl
  | cons a as ih =>
    cases as with
    | nil => rfl
    | cons b bs =>
      have h1 : aiTail ai_name (a :: b :: bs)
          = agentLineStr ai_name a "\n" ++ aiTail ai_name (b :: bs) := rfl
      have h2 : concatStrings (withLastSep ai_name " " (a :: b :: bs))
          = agentLineStr ai_name a "\n" ++ concatStrings (withLastSep ai_name " " (b :: bs)) :=
        rfl
      rw [h1, h2, ih]

theorem renderTurns_nil_right (is_private : Bool) (ai_name : String)
    (hs : List HumanChatLog) :
    renderTurns is_private ai_name hs []
      = concatStrings (hs.map (humanLineStr is_private)) := by
  induction hs with
  | nil => rfl
  | cons h hs ih =>
    simp only [renderTurns, List.map_cons, concatStrings]
    rw [ih]

theorem renderTurns_claim (is_private : Bool) (ai_name : String)
    (hs : List HumanChatLog) (as : List String) :
    renderTurns is_private ai_name hs as
      = concatStrings (interleaveStrings (hs.map (humanLineStr is_private))
          (withLastSep ai_name (if hs.length ≤ as.length then " " else "\n") as)) := by
  induction hs generalizing as with
  | nil =>
    have hc : (if ([] : List HumanChatLog).length ≤ as.length then " " else "\n") = " " :=
      if_pos (Nat.zero_le _)
    rw [hc]
    simp only [renderTurns, List.map_nil, interleaveStrings]
    exact aiTail_concat ai_name as
  | cons h hs ih =>
    cases as with
    | nil =>
      have hc : (if (h :: hs).length ≤ ([] : List String).length then " " else "\n") = "\n" :=
        if_neg (by simp)
      rw [hc]
      have h1 : withLastSep ai_name "\n" ([] : List String) = [] := rfl
      rw [h1, List.map_cons, interleaveStrings_nil_right]
      have h2 : renderTurns is_private ai_name (h :: hs) []
          = humanLineStr is_private h ++ renderTurns is_private ai_name hs [] := rfl
      rw [h2, renderTurns_nil_right]
      rfl
    | cons a as =>
      simp only [List.length_cons, Nat.add_le_add_iff_right]
      cases as with
      | nil =>
        cases hs with
        | nil =>
          have h1 : renderTurns is_private ai_name [h] [a]
              = humanLineStr is_private h ++ agentLineStr ai_name a " " ++ "" := rfl
          rw [h1, string_append_assoc]
          rfl
        | cons g gs =>
          have hlast :
              (if ((g :: gs) : List HumanChatLog).length ≤ ([] : List String).length
                then " " else "\n") = "\n" :=
            if_neg (by simp)
          rw [hlast]
          have h2 : withLastSep ai_name "\n" [a] = [agentLineStr ai_name a "\n"] := rfl
          rw [h2]
          have h3 :
              interleaveStrings (List.map (humanLineStr is_private) (h :: g :: gs))
                  [agentLineStr ai_name a "\n"]
              = humanLineStr is_private h :: agentLineStr ai_name a "\n"
                  :: List.map (humanLineStr is_private) (g :: gs) := rfl
          rw [h3]
          have h4 :
              concatStrings
                  (humanLineStr is_private h :: agentLineStr ai_name a "\n"
                    :: List.map (humanLineStr is_private) (g :: gs))
              = humanLineStr is_private h ++ (agentLineStr ai_name a "\n"
                  ++ concatStrings (List.map (humanLineStr is_private) (g :: gs))) := rfl
          rw [h4]
          have h1 : renderTurns is_private ai_name (h :: g :: gs) [a]
              = humanLineStr is_private h ++ agentLineStr ai_name a "\n"
                ++ renderTurns is_private ai_name (g :: gs) [] := rfl
          rw [h1, renderTurns_nil_right, string_append_assoc]
      | cons b bs =>
        have hsep : (if hs.isEmpty && ((b :: bs) : List String).isEmpty then " " else "\n")
            = "\n" := by
          simp
        have h1 : renderTurns is_private ai_name (h :: hs) (a :: b :: bs)
            = humanLineStr is_private h
              ++ agentLineStr ai_name a
                  (if hs.isEmpty && ((b :: bs) : List String).isEmpty then " " else "\n")
              ++ renderTurns is_private ai_name hs (b :: bs) := rfl
        rw [h1, hsep, ih (b :: bs)]
        have h2 : withLastSep ai_name (if hs.length ≤ (b :: bs).length then " " else "\n")
              (a :: b :: bs)
            = agentLineStr ai_name a "\n"
              :: withLastSep ai_name (if hs.length ≤ (b :: bs).length then " " else "\n")
                  (b :: bs) := rfl
        rw [h2]
        have h3 :
            interleaveStrings (List.map (humanLineStr is_private) (h :: hs))
                (agentLineStr ai_name a "\n"
                  :: withLastSep ai_name (if hs.length ≤ (b :: bs).length then " " else "\n")
                      (b :: bs))
            = humanLineStr is_private h :: agentLineStr ai_name a "\n"
                :: interleaveStrings (List.map (humanLineStr is_private) hs)
                    (withLastSep ai_name
                      (if hs.length ≤ (b :: bs).length then " " else "\n") (b :: bs)) := rfl
        rw [h3]
        have h4 :
            concatStrings
                (humanLineStr is_private h :: agentLineStr ai_name a "\n"
                  :: interleaveStrings (List.map (humanLineStr is_private) hs)
                      (withLastSep ai_name
                        (if hs.length ≤ (b :: bs).length then " " else "\n") (b :: bs)))
            = humanLineStr is_private h ++ (agentLineStr ai_name a "\n"
                ++ concatStrings (interleaveStrings (List.map (humanLineStr is_private) hs)
                    (withLastSep ai_name
                      (if hs.length ≤ (b :: bs).length then " " else "\n") (b :: bs)))) := rfl
        rw [h4, string_append_assoc]

/-! ### Claim theorems -/

/-- C3, counterexample: the token estimator does not count whitespace-delimited
segments.  On the line "a" TAB "b" it returns 1 (no space character), while the
line has two whitespace-delimited segments; on "a" SPACE SPACE "b" it returns 3
(the empty piece between the two spaces is counted), while the line has two
whitespace-delimited segments. -/
theorem claim_C3_counterexample :
    countTokens "a\tb" = 1 ∧ whitespaceSegmentCount "a\tb" = 2
    ∧ countTokens "a\tb" ≠ whitespaceSegmentCount "a\tb"
    ∧ countTokens "a  b" = 3 ∧ whitespaceSegmentCount "a  b" = 2
    ∧ countTokens "a  b" ≠ whitespaceSegmentCount "a  b" := by
  decide

/-- C3, amended: the token estimator returns the number of pieces obtained by
splitting the line at every single space character (U+0020), counting empty
pieces, which equals the number of space characters plus one; other whitespace
is not a delimiter and there is no normalization. -/
theorem claim_C3 (line : String) :
    countTokens line = line.data.count ' ' + 1 :=
  countTokens_count line

set_option maxRecDepth 8000 in
/-- C4: render produces exactly the preamble, a blank line, then turns
alternating starting with a human turn; each human line is
"speakerLabel: trimmedText\n" with the label "Human" when private and the
stored speaker name otherwise; each agent line is "agentName: trimmedText"
followed by a newline, except an agent line that is simultaneously the last
remaining line of both logs, which is followed by a single space and no
newline.  In particular appendHuman("A","hi") then appendAgent("hey") then
render("Bot") on a fresh non-private context yields the preamble, a blank
line, "A: hi", a newline, and "Bot: hey " with a trailing space. -/
theorem claim_C4 :
    (∀ (s : ChatHistory) (ai_name : String),
        ChatHistory.toString s ai_name
          = claimRender s.is_private ai_name s.start_context s.human_chat_log s.ai_chat_log)
    ∧ ChatHistory.toString c4State "Bot" = defaultStartContext ++ "\n\nA: hi\nBot: hey " := by
  constructor
  · intro s ai_name
    unfold ChatHistory.toString claimRender
    rw [renderTurns_claim]
  · rfl

/-- C5, counterexample: on an empty new context with preamble "Hello." and
isPrivate = false, appendHuman("Alice","hi") then render("Bot") does NOT
return "Hello.\n\nAlice: hi " — a final human line is never given the
trailing-space treatment. -/
theorem claim_C5_counterexample :
    ChatHistory.toString c5State "Bot" ≠ "Hello.\n\nAlice: hi " := by
  decide

/-- C5, amended: on an empty new context with preamble "Hello." and
isPrivate = false, appendHuman("Alice","hi") then render("Bot") returns
exactly "Hello.\n\nAlice: hi\n": a human line always ends in a newline, and
the trailing-space rule applies only to a final agent line. -/
theorem claim_C5 :
    ChatHistory.toString c5State "Bot" = "Hello.\n\nAlice: hi\n" := by
  rfl

/-- C9: for the temperature command issued by an allow-listed caller, the bare
command clears the stored option; an unparsable trailing value leaves the
prior value unchanged with no error; and the trailing value "0.5" stores
exactly 0.5. -/
theorem claim_C9 (cfg : Configuration) :
    applyTemperatureCommand "!temperature" cfg = { cfg with temperature := none }
    ∧ applyTemperatureCommand "!temperature abc" cfg = cfg
    ∧ applyTemperatureCommand "!temperature 0.5" cfg
        = { cfg with temperature := some (0.5 : ℚ) } := by
  refine ⟨rfl, rfl, ?_⟩
  have h : parseF64 (String.mk ("!temperature 0.5".data.drop ("!temperature".data.length + 1)))
      = some (ratOfParts (0, 5, 1)) := rfl
  have h2 : ratOfParts (0, 5, 1) = (0.5 : ℚ) := by norm_num [ratOfParts]
  rw [h2] at h
  simp only [applyTemperatureCommand, h]
  rfl

/-- C10: a freshly created context carries the hard-coded token estimate 20,
which differs from the estimated cost of the built-in default preamble (57),
so resetting a brand-new context with no turns strictly increases the
estimate instead of leaving it fixed. -/
theorem claim_C10 (p : Bool) :
    (ChatHistory.new p).tokens_so_far = 20
    ∧ countTokens (ChatHistory.new p).start_context ≠ 20
    ∧ (ChatHistory.reset (ChatHistory.new p)).tokens_so_far
        = countTokens (ChatHistory.new p).start_context
    ∧ (ChatHistory.new p).tokens_so_far < (ChatHistory.reset (ChatHistory.new p)).tokens_so_far := by
  cases p <;> exact ⟨rfl, by decide, rfl, by decide⟩

/-- C2, counterexample: a single appendHuman("Alice","hi") on a fresh
non-private context keeps the cumulative cost far below the ceiling, yet the
resulting estimate (21 = 20 + cost "hi") differs from the preamble cost plus
the per-turn cost of the one human turn (57 + cost "hi" + cost "Alice" = 59):
the incremental bookkeeping adds only the line cost, never the speaker-name
or agent-name adjustment that the from-scratch recomputation uses. -/
theorem claim_C2_counterexample :
    countTokens defaultStartContext + (countTokens "hi" + countTokens "Alice") ≤ 1500
    ∧ 20 + countTokens "hi" ≤ 1500
    ∧ (applyOps (ChatHistory.new false) [AppendOp.human "Alice" "hi"]).tokens_so_far
        ≠ countTokens defaultStartContext + (countTokens "hi" + countTokens "Alice") := by
  decide

/-- C2, amended: for every sequence of appendHuman/appendAgent calls whose
cumulative estimated line cost, on top of the hard-coded initial estimate 20,
stays within the 1500 ceiling (so no purge occurs), the resulting estimate
equals 20 plus the sum of the line costs alone — with no preamble cost and no
per-turn speaker-name or agent-name adjustment. -/
theorem claim_C2 (p : Bool) (ops : List AppendOp)
    (h : 20 + opsCost ops ≤ 1500) :
    (applyOps (ChatHistory.new p) ops).tokens_so_far = 20 + opsCost ops :=
  applyOps_tokens ops (ChatHistory.new p) h

/-- C2, witness: the amended claim applied to the one-call sequence
appendHuman("A","hi") on a fresh non-private context. -/
theorem claim_C2_witness :
    20 + opsCost [AppendOp.human "A" "hi"] ≤ 1500
    ∧ (applyOps (ChatHistory.new false) [AppendOp.human "A" "hi"]).tokens_so_far
        = 20 + opsCost [AppendOp.human "A" "hi"] :=
  ⟨by decide, claim_C2 false [AppendOp.human "A" "hi"] (by decide)⟩

/-- C1: whenever the new line cost plus the running estimate exceeds 1500, each
append operation first drops the oldest floor(n/2) entries from each log
independently (each by its own length) and recomputes the estimate from
scratch over the preamble and the surviving turns, and then still appends the
human turn, appends the agent turn, or (when a last agent turn exists)
concatenates onto it, adding the line cost to the recomputed estimate. -/
theorem claim_C1 (s : ChatHistory) (nm line : String)
    (h : countTokens line + s.tokens_so_far > 1500) :
    (addHumanLog s nm line).human_chat_log
        = s.human_chat_log.drop (s.human_chat_log.length / 2) ++ [{ line := line, name := nm }]
    ∧ (addHumanLog s nm line).ai_chat_log = s.ai_chat_log.drop (s.ai_chat_log.length / 2)
    ∧ (addHumanLog s nm line).tokens_so_far
        = (recalculateTokens (purgeHalfChatLogs s)).tokens_so_far + countTokens line
    ∧ (addAiLog s line).ai_chat_log
        = s.ai_chat_log.drop (s.ai_chat_log.length / 2) ++ [line]
    ∧ (addAiLog s line).human_chat_log = s.human_chat_log.drop (s.human_chat_log.length / 2)
    ∧ (addAiLog s line).tokens_so_far
        = (recalculateTokens (purgeHalfChatLogs s)).tokens_so_far + countTokens line
    ∧ (s.ai_chat_log ≠ [] →
        ∃ rest lastTurn,
          s.ai_chat_log.drop (s.ai_chat_log.length / 2) = rest ++ [lastTurn]
          ∧ (continueLastAiLog s line).ai_chat_log = rest ++ [lastTurn ++ line]
          ∧ (continueLastAiLog s line).human_chat_log
              = s.human_chat_log.drop (s.human_chat_log.length / 2)
          ∧ (continueLastAiLog s line).tokens_so_far
              = (recalculateTokens (purgeHalfChatLogs s)).tokens_so_far + countTokens line) := by
  have hcalc := calculateNewTokens_purge_eq s line h
  have ehum : (calculateNewTokens s line).human_chat_log
      = s.human_chat_log.drop (s.human_chat_log.length / 2) := by
    rw [hcalc]
    simp [recalculateTokens, purgeHalfChatLogs]
  have eai : (calculateNewTokens s line).ai_chat_log
      = s.ai_chat_log.drop (s.ai_chat_log.length / 2) := by
    rw [hcalc]
    simp [recalculateTokens, purgeHalfChatLogs]
  have etok : (calculateNewTokens s line).tokens_so_far
      = (recalculateTokens (purgeHalfChatLogs s)).tokens_so_far + countTokens line := by
    rw [hcalc]
  refine ⟨?_, ?_, ?_, ?_, ?_, ?_, ?_⟩
  · show (calculateNewTokens s line).human_chat_log ++ [{ line := line, name := nm }] = _
    rw [ehum]
  · exact eai
  · exact etok
  · show (calculateNewTokens s line).ai_chat_log ++ [line] = _
    rw [eai]
  · exact ehum
  · exact etok
  · intro hne
    have hlen : 0 < s.ai_chat_log.length := List.length_pos.mpr hne
    have hd : s.ai_chat_log.drop (s.ai_chat_log.length / 2) ≠ [] := by
      rw [Ne, List.drop_eq_nil_iff]
      omega
    refine ⟨(s.ai_chat_log.drop (s.ai_chat_log.length / 2)).dropLast,
      (s.ai_chat_log.drop (s.ai_chat_log.length / 2)).getLast hd, ?_, ?_, ehum, etok⟩
    · exact (List.dropLast_append_getLast hd).symm
    · show appendToLast (calculateNewTokens s line).ai_chat_log line = _
      rw [eai]
      conv_lhs => rw [← List.dropLast_append_getLast hd]
      rw [appendToLast_snoc]

/-- C1, witness: the theorem applied to a concrete state holding 1500 tokens,
two human turns and two agent turns, with the one-token line "w". -/
theorem claim_C1_witness :
    countTokens "w" + c1State.tokens_so_far > 1500
    ∧ ((addHumanLog c1State "N" "w").human_chat_log
          = c1State.human_chat_log.drop (c1State.human_chat_log.length / 2)
            ++ [{ line := "w", name := "N" }]
        ∧ (addHumanLog c1State "N" "w").ai_chat_log
            = c1State.ai_chat_log.drop (c1State.ai_chat_log.length / 2)
        ∧ (addHumanLog c1State "N" "w").tokens_so_far
            = (recalculateTokens (purgeHalfChatLogs c1State)).tokens_so_far + countTokens "w"
        ∧ (addAiLog c1State "w").ai_chat_log
            = c1State.ai_chat_log.drop (c1State.ai_chat_log.length / 2) ++ ["w"]
        ∧ (addAiLog c1State "w").human_chat_log
            = c1State.human_chat_log.drop (c1State.human_chat_log.length / 2)
        ∧ (addAiLog c1State "w").tokens_so_far
            = (recalculateTokens (purgeHalfChatLogs c1State)).tokens_so_far + countTokens "w"
        ∧ (c1State.ai_chat_log ≠ [] →
            ∃ rest lastTurn,
              c1State.ai_chat_log.drop (c1State.ai_chat_log.length / 2) = rest ++ [lastTurn]
              ∧ (continueLastAiLog c1State "w").ai_chat_log = rest ++ [lastTurn ++ "w"]
              ∧ (continueLastAiLog c1State "w").human_chat_log
                  = c1State.human_chat_log.drop (c1State.human_chat_log.length / 2)
              ∧ (continueLastAiLog c1State "w").tokens_so_far
                  = (recalculateTokens (purgeHalfChatLogs c1State)).tokens_so_far
                    + countTokens "w")) :=
  ⟨by decide, claim_C1 c1State "N" "w" (by decide)⟩

/-- C6: when the remote service answers with a single choice finishing for
Length and then a single choice finishing for Stop, the loop returns the
concatenation of the two texts with newlines replaced by spaces, and exactly
one new agent turn carrying that concatenation is appended in total: the
final agent log is a suffix of the old one (the purge may drop old entries)
followed by the single new turn, and the human log is a suffix of the old
human log. -/
theorem claim_C6 (s : ChatHistory) (t1 t2 : String) :
    ∃ s' j k,
      generateResponse
          [{ choices := [{ text := t1, finish_reason := FinishReason.length }] },
           { choices := [{ text := t2, finish_reason := FinishReason.stop }] }] s
        = some (replaceNewlines t1 ++ replaceNewlines t2, s')
      ∧ s'.ai_chat_log
          = s.ai_chat_log.drop j ++ [replaceNewlines t1 ++ replaceNewlines t2]
      ∧ s'.human_chat_log = s.human_chat_log.drop k := by
  obtain ⟨j₁, k₁, hj₁, hk₁, hA₁, hH₁⟩ := calculateNewTokens_logs s (replaceNewlines t1)
  obtain ⟨j₂, k₂, hj₂, hk₂, hA₂, hH₂⟩ :=
    calculateNewTokens_logs (addAiLog s (replaceNewlines t1)) (replaceNewlines t2)
  have hgen :
      generateResponse
          [{ choices := [{ text := t1, finish_reason := FinishReason.length }] },
           { choices := [{ text := t2, finish_reason := FinishReason.stop }] }] s
        = some ((("" ++ replaceNewlines t1) ++ replaceNewlines t2),
            continueLastAiLog (addAiLog s (replaceNewlines t1)) (replaceNewlines t2)) := rfl
  have hbuf : ("" ++ replaceNewlines t1) ++ replaceNewlines t2
      = replaceNewlines t1 ++ replaceNewlines t2 := by
    rw [string_empty_append]
  have haiA : (addAiLog s (replaceNewlines t1)).ai_chat_log
      = s.ai_chat_log.drop j₁ ++ [replaceNewlines t1] := by
    show (calculateNewTokens s (replaceNewlines t1)).ai_chat_log ++ [replaceNewlines t1] = _
    rw [hA₁]
  have hlenj₂ : j₂ ≤ (s.ai_chat_log.drop j₁).length := by
    rw [haiA] at hj₂
    simp only [List.length_append, List.length_cons, List.length_nil] at hj₂
    omega
  refine ⟨continueLastAiLog (addAiLog s (replaceNewlines t1)) (replaceNewlines t2),
    j₁ + j₂, k₁ + k₂, ?_, ?_, ?_⟩
  · rw [hgen, hbuf]
  · show appendToLast
        (calculateNewTokens (addAiLog s (replaceNewlines t1)) (replaceNewlines t2)).ai_chat_log
        (replaceNewlines t2) = _
    rw [hA₂, haiA, List.drop_append_of_le_length hlenj₂, appendToLast_snoc, List.drop_drop]
  · show (calculateNewTokens (addAiLog s (replaceNewlines t1))
        (replaceNewlines t2)).human_chat_log = _
    rw [hH₂]
    have hhA : (addAiLog s (replaceNewlines t1)).human_chat_log
        = s.human_chat_log.drop k₁ := hH₁
    rw [hhA, List.drop_drop]

set_option maxRecDepth 40000 in
/-- C7, counterexample: a state reachable by two agent appends from a fresh
context — first a 1601-token line, then the one-token line "x" — ends with an
estimate of 1660 tokens, exceeding the ceiling plus the cost of the line just
appended (1500 + 1 = 1501): purge-half drops nothing from a single-entry log,
so the recomputed estimate itself stays far above the ceiling. -/
theorem claim_C7_counterexample :
    1500 + countTokens "x"
      < (addAiLog (addAiLog (ChatHistory.new false) bigLine) "x").tokens_so_far := by
  decide

/-- C7, amended: immediately after any append, the estimate is bounded by the
larger of the 1500 ceiling and the from-scratch recomputation over the purged
state, plus the cost of the line just appended.  The original bound (ceiling
plus line cost) holds whenever that recomputation stays within the ceiling,
but can be exceeded when the surviving turns alone exceed it. -/
theorem claim_C7 (s : ChatHistory) (nm line : String) :
    (addHumanLog s nm line).tokens_so_far
        ≤ max 1500 (recalculateTokens (purgeHalfChatLogs s)).tokens_so_far + countTokens line
    ∧ (addAiLog s line).tokens_so_far
        ≤ max 1500 (recalculateTokens (purgeHalfChatLogs s)).tokens_so_far + countTokens line
    ∧ (continueLastAiLog s line).tokens_so_far
        ≤ max 1500 (recalculateTokens (purgeHalfChatLogs s)).tokens_so_far + countTokens line :=
  ⟨calculateNewTokens_le s line, calculateNewTokens_le s line, calculateNewTokens_le s line⟩

/-- C8, counterexample: on a fresh context (whose agent log is empty),
continueLastAgent("hi") changes the observable state: the token estimate
moves from 20 to 21, because the budget step runs and charges the line before
the missing-turn error is noticed. -/
theorem claim_C8_counterexample :
    (ChatHistory.new false).ai_chat_log = []
    ∧ (continueLastAiLog (ChatHistory.new false) "hi").tokens_so_far
        ≠ (ChatHistory.new false).tokens_so_far := by
  decide

/-- C8, amended: when the agent log is empty, continueLastAgent logs a
non-fatal error and drops the text — no agent turn is created, and the seen
names, preamble, privacy flag and configuration are unchanged — but the
budget step still runs: the estimate grows by the line cost (after a
from-scratch recomputation when the ceiling would be crossed, in which case
the human log also loses its oldest half). -/
theorem claim_C8 (s : ChatHistory) (line : String) (h : s.ai_chat_log = []) :
    (continueLastAiLog s line).ai_chat_log = []
    ∧ (continueLastAiLog s line).seen_names = s.seen_names
    ∧ (continueLastAiLog s line).start_context = s.start_context
    ∧ (continueLastAiLog s line).is_private = s.is_private
    ∧ (continueLastAiLog s line).configuration = s.configuration
    ∧ (if countTokens line + s.tokens_so_far > 1500
        then (continueLastAiLog s line).human_chat_log
              = s.human_chat_log.drop (s.human_chat_log.length / 2)
          ∧ (continueLastAiLog s line).tokens_so_far
              = (recalculateTokens (purgeHalfChatLogs s)).tokens_so_far + countTokens line
        else (continueLastAiLog s line).human_chat_log = s.human_chat_log
          ∧ (continueLastAiLog s line).tokens_so_far
              = s.tokens_so_far + countTokens line) := by
  obtain ⟨hsn, hsc, hip, hcf⟩ := calculateNewTokens_same_fields s line
  have hai : (calculateNewTokens s line).ai_chat_log = [] := by
    by_cases hc : countTokens line + s.tokens_so_far > 1500
    · simp [calculateNewTokens, hc, recalculateTokens, purgeHalfChatLogs, h]
    · simp [calculateNewTokens, hc, h]
  refine ⟨?_, hsn, hsc, hip, hcf, ?_⟩
  · show appendToLast (calculateNewTokens s line).ai_chat_log line = []
    rw [hai]
    rfl
  · by_cases hc : countTokens line + s.tokens_so_far > 1500
    · rw [if_pos hc]
      refine ⟨?_, ?_⟩
      · show (calculateNewTokens s line).human_chat_log = _
        simp [calculateNewTokens, hc, recalculateTokens, purgeHalfChatLogs]
      · show (calculateNewTokens s line).tokens_so_far = _
        simp [calculateNewTokens, hc]
    · rw [if_neg hc]
      refine ⟨?_, ?_⟩
      · show (calculateNewTokens s line).human_chat_log = _
        simp [calculateNewTokens, hc]
      · show (calculateNewTokens s line).tokens_so_far = _
        simp [calculateNewTokens, hc]

/-- C8, witness: the amended claim applied to a fresh non-private context and
the line "hi". -/
theorem claim_C8_witness :
    (ChatHistory.new false).ai_chat_log = []
    ∧ ((continueLastAiLog (ChatHistory.new false) "hi").ai_chat_log = []
        ∧ (continueLastAiLog (ChatHistory.new false) "hi").seen_names
            = (ChatHistory.new false).seen_names
        ∧ (continueLastAiLog (ChatHistory.new false) "hi").start_context
            = (ChatHistory.new false).start_context
        ∧ (continueLastAiLog (ChatHistory.new false) "hi").is_private
            = (ChatHistory.new false).is_private
        ∧ (continueLastAiLog (ChatHistory.new false) "hi").configuration
            = (ChatHistory.new false).configuration
        ∧ (if countTokens "hi" + (ChatHistory.new false).tokens_so_far > 1500
            then (continueLastAiLog (ChatHistory.new false) "hi").human_chat_log
                  = (ChatHistory.new false).human_chat_log.drop
                      ((ChatHistory.new false).human_chat_log.length / 2)
              ∧ (continueLastAiLog (ChatHistory.new false) "hi").tokens_so_far
                  = (recalculateTokens (purgeHalfChatLogs (ChatHistory.new false))).tokens_so_far
                    + countTokens "hi"
            else (continueLastAiLog (ChatHistory.new false) "hi").human_chat_log
                  = (ChatHistory.new false).human_chat_log
              ∧ (continueLastAiLog (ChatHistory.new false) "hi").tokens_so_far
                  = (ChatHistory.new false).tokens_so_far + countTokens "hi")) :=
  ⟨rfl, claim_C8 (ChatHistory.new false) "hi" rfl⟩

end Dorothy
